import Mathlib

/-! Shallow embedding of src/server.py (class ChatServer) together with
theorems settling the specification claims against it.

Modelling conventions: a client socket is identified by a natural number;
per-socket network health is an environment `env : ConnId → Bool` (false
means any send on that socket raises, which the bare except in broadcast
swallows); each recv call on the handled connection yields one `InEv`
(Python recv returns one chunk of at most BUFFER_SIZE bytes, and
returning no bytes at end of stream decodes to the empty string); the
registry self.clients is an insertion-ordered association list, matching
dict semantics; the non-reentrant threading.Lock is modelled at the point
where it matters: broadcast invoked while the lock is already held blocks
forever, recorded as the `none` branch of pyBroadcast and the
`deadlocked` flag of the session result. -/

set_option maxRecDepth 8000

namespace ChatServer

/-- Connection identity: one client socket object. -/
abbrev ConnId := Nat

/-- Result of one recv on the handled socket: `msg s` is a decoded chunk
(the empty string models recv returning no bytes at end of stream),
`err` models recv or the UTF-8 decode raising an exception. -/
inductive InEv where
  | msg (s : String)
  | err
deriving DecidableEq

/-- Lookup in the self.clients dict (socket to username, server.py line 16). -/
def dictGet : List (ConnId × String) → ConnId → Option String
  | [], _ => none
  | (c, n) :: r, k => if c = k then some n else dictGet r k

/-- Membership test `client_socket in self.clients` (server.py line 77). -/
def dictHas (reg : List (ConnId × String)) (k : ConnId) : Bool :=
  (dictGet reg k).isSome

/-- Assignment `self.clients[client_socket] = username` (server.py line 59):
dict semantics replace the value in place when the key is present, else
append a new entry at the end. -/
def dictSet : List (ConnId × String) → ConnId → String → List (ConnId × String)
  | [], k, v => [(k, v)]
  | (c, n) :: r, k, v => if c = k then (k, v) :: r else (c, n) :: dictSet r k v

/-- Removal `self.clients.pop(client_socket)` (server.py line 78). -/
def dictPop : List (ConnId × String) → ConnId → List (ConnId × String)
  | [], _ => []
  | (c, n) :: r, k => if c = k then r else (c, n) :: dictPop r k

/-- Drops leading ASCII whitespace characters. -/
def dropSpace : List Char → List Char
  | [] => []
  | c :: r => if c = ' ' || c = '\t' || c = '\n' || c = '\r' then dropSpace r else c :: r

/-- Models the Python str.strip() applied to the decoded handshake payload
(server.py line 56), for ASCII whitespace. -/
def pyStrip (s : String) : String :=
  ⟨(dropSpace (dropSpace s.data).reverse).reverse⟩

/-- One client_socket.send attempt inside broadcast: `ok` is false when the
send raised and the bare except swallowed it (server.py lines 92-95). -/
structure SendAttempt where
  target : ConnId
  payload : String
  ok : Bool
deriving DecidableEq

/-- Send attempts performed by the loop of broadcast (server.py lines
90-95): every registered socket other than `exclude` is sent the message;
a send on a dead socket fails and the failure is swallowed. -/
def broadcastAttempts (env : ConnId → Bool) (reg : List (ConnId × String))
    (message : String) (exclude : Option ConnId) : List SendAttempt :=
  (reg.filter fun p => decide (some p.1 ≠ exclude)).map fun p => ⟨p.1, message, env p.1⟩

/-- Models broadcast (server.py lines 87-95) together with its opening
`with self.lock`: when the calling thread already holds the non-reentrant
lock, the acquire blocks forever, modelled as `none`; otherwise the send
loop runs to completion and the call returns normally. -/
def pyBroadcast (lockFree : Bool) (env : ConnId → Bool)
    (reg : List (ConnId × String)) (message : String)
    (exclude : Option ConnId) : Option (List SendAttempt) :=
  if lockFree then some (broadcastAttempts env reg message exclude) else none

/-- Primitive events of one broadcast call: lock acquire, lock release, and
a socket send. -/
inductive BEv where
  | acq
  | rel
  | send (c : ConnId) (m : String) (ok : Bool)
deriving DecidableEq

/-- Event view of one send attempt. -/
def sendEv (a : SendAttempt) : BEv := BEv.send a.target a.payload a.ok

/-- Event trace of one broadcast call from a thread that does not yet hold
the lock (server.py lines 87-95): acquire, then the send loop, then
release. -/
def broadcastTrace (env : ConnId → Bool) (reg : List (ConnId × String))
    (message : String) (exclude : Option ConnId) : List BEv :=
  BEv.acq :: ((broadcastAttempts env reg message exclude).map sendEv ++ [BEv.rel])

/-- Sends of a trace performed at lock depth zero, scanning from depth `d`. -/
def sendsOutsideLock : List BEv → Nat → List (ConnId × String)
  | [], _ => []
  | BEv.acq :: r, d => sendsOutsideLock r (d + 1)
  | BEv.rel :: r, d => sendsOutsideLock r (d - 1)
  | BEv.send c m _ :: r, d => (if d = 0 then [(c, m)] else []) ++ sendsOutsideLock r d

/-- Sends of a trace performed with the lock held, scanning from depth `d`. -/
def sendsInsideLock : List BEv → Nat → List (ConnId × String)
  | [], _ => []
  | BEv.acq :: r, d => sendsInsideLock r (d + 1)
  | BEv.rel :: r, d => sendsInsideLock r (d - 1)
  | BEv.send c m _ :: r, d => (if d = 0 then [] else [(c, m)]) ++ sendsInsideLock r d

/-- Observable outcome of one _handle_client session: the registry after
the finally block, the broadcast invocations made (message and exclude
argument), the socket send attempts actually performed, whether the
finally-block broadcast deadlocked on the already-held lock, and the
registered username paired with the registry as it stood right after
registration (`none` when registration never happened). -/
structure HandlerResult where
  reg : List (ConnId × String)
  calls : List (String × Option ConnId)
  attempts : List SendAttempt
  deadlocked : Bool
  active : Option (String × List (ConnId × String))
deriving DecidableEq

/-- Models the finally block of _handle_client (server.py lines 75-85):
under `with self.lock`, when the socket is still registered it is popped
and a LEAVE broadcast is invoked; that broadcast call happens while the
lock is held, so with the non-reentrant threading.Lock it blocks forever
and its sends never run. -/
def cleanupStage (env : ConnId → Bool) (conn : ConnId)
    (regCur : List (ConnId × String)) (calls : List (String × Option ConnId))
    (ats : List SendAttempt) (act : Option (String × List (ConnId × String))) :
    HandlerResult :=
  if dictHas regCur conn then
    let uname := (dictGet regCur conn).getD ""
    let leaveMsg := uname ++ " left the chat"
    let regPop := dictPop regCur conn
    match pyBroadcast false env regPop leaveMsg none with
    | some extra => ⟨regPop, calls ++ [(leaveMsg, none)], ats ++ extra, false, act⟩
    | none => ⟨regPop, calls ++ [(leaveMsg, none)], ats, true, act⟩
  else
    ⟨regCur, calls, ats, false, act⟩

/-- Models the receive loop of _handle_client (server.py lines 64-71): each
recv chunk is decoded and, when nonempty, broadcast verbatim as
`username: data` excluding the sender; an empty chunk (end of stream)
breaks the loop and an exception leaves it; the registry view the session
broadcasts over is the one produced at its registration. Returns the
broadcast invocations made and the send attempts they performed. -/
def sessionLoop (env : ConnId → Bool) (conn : ConnId) (username : String)
    (reg1 : List (ConnId × String)) :
    List InEv → List (String × Option ConnId) × List SendAttempt
  | [] => ([], [])
  | InEv.err :: _ => ([], [])
  | InEv.msg s :: rest =>
    if s = "" then ([], [])
    else
      let m := username ++ ": " ++ s
      let lp := sessionLoop env conn username reg1 rest
      ((m, some conn) :: lp.1, broadcastAttempts env reg1 m (some conn) ++ lp.2)

/-- First recv of a session script: an exhausted script stands for a peer
that sends nothing more, which recv reports as an empty chunk. -/
def handshakeEv : List InEv → InEv × List InEv
  | [] => (InEv.msg "", [])
  | e :: r => (e, r)

/-- Models _handle_client (server.py lines 48-85) for one connection, with
the rest of the system abstracted into `env` (per-socket health) and
`reg0` (the registry when the session starts): greeting send, handshake
recv (the username is the stripped decoded chunk, with no validation),
registration, JOIN broadcast excluding the sender, the receive loop, and
the finally-block cleanup. -/
def handleClient (env : ConnId → Bool) (conn : ConnId) (events : List InEv)
    (reg0 : List (ConnId × String)) : HandlerResult :=
  if env conn then
    match handshakeEv events with
    | (InEv.err, _) => cleanupStage env conn reg0 [] [] none
    | (InEv.msg s, rest) =>
      let username := pyStrip s
      let reg1 := dictSet reg0 conn username
      let joinMsg := username ++ " joined the chat"
      let joinAts := broadcastAttempts env reg1 joinMsg (some conn)
      let lp := sessionLoop env conn username reg1 rest
      cleanupStage env conn reg1 ((joinMsg, some conn) :: lp.1)
        (joinAts ++ lp.2) (some (username, reg1))
  else
    cleanupStage env conn reg0 [] [] none

/-- Modelled from the spec: the framing codec of sections 4.1 and 6
([4-byte big-endian length][payload]) is absent from src, where the
server reads raw buffers; encode of one frame payload given as bytes. -/
def encodeFrame (p : List Nat) : List Nat :=
  [p.length / 16777216 % 256, p.length / 65536 % 256, p.length / 256 % 256,
    p.length % 256] ++ p

/-- Modelled from the spec: decode over a byte buffer, yielding every
complete frame in order; `fuel` bounds the recursion. -/
def decodeFramesFuel : Nat → List Nat → List (List Nat)
  | 0, _ => []
  | fuel + 1, b0 :: b1 :: b2 :: b3 :: rest =>
    let n := ((b0 * 256 + b1) * 256 + b2) * 256 + b3
    if rest.length < n then []
    else rest.take n :: decodeFramesFuel fuel (rest.drop n)
  | _ + 1, _ => []

/-- Modelled from the spec: decode a whole received buffer. -/
def decodeAll (buf : List Nat) : List (List Nat) :=
  decodeFramesFuel buf.length buf

/-- Byte view of an ASCII string payload. -/
def strBytes (s : String) : List Nat := s.data.map Char.toNat

/-- Setting a key makes its value the one just stored. -/
lemma dictGet_dictSet_self (r : List (ConnId × String)) (c : ConnId) (n : String) :
    dictGet (dictSet r c n) c = some n := by
  induction r with
  | nil => simp [dictSet, dictGet]
  | cons p t ih =>
    obtain ⟨c0, n0⟩ := p
    by_cases h : c0 = c
    · simp [dictSet, h, dictGet]
    · simp [dictSet, h, dictGet, ih]

/-- Setting a key leaves every other key unchanged. -/
lemma dictGet_dictSet_ne (r : List (ConnId × String)) (c k : ConnId) (n : String)
    (h : k ≠ c) : dictGet (dictSet r c n) k = dictGet r k := by
  have h2 : ¬ (c = k) := fun hh => h hh.symm
  induction r with
  | nil => simp [dictSet, dictGet, h2]
  | cons p t ih =>
    obtain ⟨c0, n0⟩ := p
    by_cases h0 : c0 = c
    · subst h0
      simp [dictSet, dictGet, h2]
    · simp [dictSet, h0, dictGet, ih]

/-- Popping a key leaves every other key unchanged. -/
lemma dictGet_dictPop_ne (r : List (ConnId × String)) (c k : ConnId)
    (h : k ≠ c) : dictGet (dictPop r c) k = dictGet r k := by
  have h2 : ¬ (c = k) := fun hh => h hh.symm
  induction r with
  | nil => simp [dictPop]
  | cons p t ih =>
    obtain ⟨c0, n0⟩ := p
    by_cases h0 : c0 = c
    · subst h0
      simp [dictPop, dictGet, h2]
    · simp [dictPop, h0, dictGet, ih]

/-- Setting a key makes it present. -/
lemma dictHas_dictSet_self (r : List (ConnId × String)) (c : ConnId) (n : String) :
    dictHas (dictSet r c n) c = true := by
  simp [dictHas, dictGet_dictSet_self]

/-- Overwriting a present key keeps the registry size. -/
lemma dictSet_length_of_mem (reg : List (ConnId × String)) (c : ConnId)
    (n old : String) (h : dictGet reg c = some old) :
    (dictSet reg c n).length = reg.length := by
  revert h
  induction reg with
  | nil => intro h; simp [dictGet] at h
  | cons p t ih =>
    intro h
    obtain ⟨c0, n0⟩ := p
    by_cases h0 : c0 = c
    · simp [dictSet, h0]
    · simp [dictGet, h0] at h
      simp [dictSet, h0, ih h]

/-- Every registered live socket other than the excluded one gets a send
attempt with its current health. -/
lemma mem_broadcastAttempts_intro (env : ConnId → Bool)
    (reg : List (ConnId × String)) (message : String) (exclude : Option ConnId)
    (c : ConnId) (n : String) (hm : (c, n) ∈ reg) (hex : some c ≠ exclude) :
    (⟨c, message, env c⟩ : SendAttempt) ∈ broadcastAttempts env reg message exclude := by
  unfold broadcastAttempts
  exact List.mem_map.mpr ⟨(c, n), List.mem_filter.mpr ⟨hm, by simp [hex]⟩, rfl⟩

/-- No send attempt of a broadcast targets the excluded socket. -/
lemma broadcastAttempts_target_ne {env : ConnId → Bool}
    {reg : List (ConnId × String)} {message : String} {P : ConnId}
    {a : SendAttempt} (ha : a ∈ broadcastAttempts env reg message (some P)) :
    a.target ≠ P := by
  unfold broadcastAttempts at ha
  obtain ⟨p, hp, rfl⟩ := List.mem_map.mp ha
  have h2 := (List.mem_filter.mp hp).2
  simp at h2
  exact h2

/-- Projection: the cleanup stage keeps the provided session record. -/
lemma cleanupStage_active (env : ConnId → Bool) (conn : ConnId)
    (reg : List (ConnId × String)) (cs : List (String × Option ConnId))
    (ats : List SendAttempt) (act : Option (String × List (ConnId × String))) :
    (cleanupStage env conn reg cs ats act).active = act := by
  cases hb : dictHas reg conn <;> simp [cleanupStage, hb, pyBroadcast]

/-- Projection: the cleanup stage performs no send of its own, because the
LEAVE broadcast blocks on the already-held lock before its loop runs. -/
lemma cleanupStage_attempts (env : ConnId → Bool) (conn : ConnId)
    (reg : List (ConnId × String)) (cs : List (String × Option ConnId))
    (ats : List SendAttempt) (act : Option (String × List (ConnId × String))) :
    (cleanupStage env conn reg cs ats act).attempts = ats := by
  cases hb : dictHas reg conn <;> simp [cleanupStage, hb, pyBroadcast]

/-- Projection: the registry after cleanup. -/
lemma cleanupStage_reg (env : ConnId → Bool) (conn : ConnId)
    (reg : List (ConnId × String)) (cs : List (String × Option ConnId))
    (ats : List SendAttempt) (act : Option (String × List (ConnId × String))) :
    (cleanupStage env conn reg cs ats act).reg =
      if dictHas reg conn then dictPop reg conn else reg := by
  cases hb : dictHas reg conn <;> simp [cleanupStage, hb, pyBroadcast]

/-- Projection: the broadcast invocations after cleanup. -/
lemma cleanupStage_calls (env : ConnId → Bool) (conn : ConnId)
    (reg : List (ConnId × String)) (cs : List (String × Option ConnId))
    (ats : List SendAttempt) (act : Option (String × List (ConnId × String))) :
    (cleanupStage env conn reg cs ats act).calls =
      if dictHas reg conn then
        cs ++ [((dictGet reg conn).getD "" ++ " left the chat", none)]
      else cs := by
  cases hb : dictHas reg conn <;> simp [cleanupStage, hb, pyBroadcast]

/-- Projection: cleanup deadlocks exactly when it finds the socket still
registered and so reaches the nested broadcast call. -/
lemma cleanupStage_deadlocked (env : ConnId → Bool) (conn : ConnId)
    (reg : List (ConnId × String)) (cs : List (String × Option ConnId))
    (ats : List SendAttempt) (act : Option (String × List (ConnId × String))) :
    (cleanupStage env conn reg cs ats act).deadlocked = dictHas reg conn := by
  cases hb : dictHas reg conn <;> simp [cleanupStage, hb, pyBroadcast]

/-- Every broadcast invocation of the receive loop is a DATA relay of the
form `username: body` excluding the sender. -/
lemma sessionLoop_calls (env : ConnId → Bool) (conn : ConnId) (u : String)
    (r1 : List (ConnId × String)) :
    ∀ evs ce, ce ∈ (sessionLoop env conn u r1 evs).1 →
    ∃ s, ce = (u ++ ": " ++ s, some conn) := by
  intro evs
  induction evs with
  | nil => intro ce h; simp [sessionLoop] at h
  | cons e t ih =>
    intro ce h
    cases e with
    | err => simp [sessionLoop] at h
    | msg s =>
      by_cases hs : s = ""
      · simp [sessionLoop, hs] at h
      · simp [sessionLoop, hs, List.mem_cons] at h
        rcases h with h | h
        · exact ⟨s, by simp [h]⟩
        · exact ih ce h

/-- Every send attempt of the receive loop comes from a broadcast that
excludes the sender. -/
lemma sessionLoop_attempts (env : ConnId → Bool) (conn : ConnId) (u : String)
    (r1 : List (ConnId × String)) :
    ∀ evs a, a ∈ (sessionLoop env conn u r1 evs).2 →
    ∃ m, a ∈ broadcastAttempts env r1 m (some conn) := by
  intro evs
  induction evs with
  | nil => intro a h; simp [sessionLoop] at h
  | cons e t ih =>
    intro a h
    cases e with
    | err => simp [sessionLoop] at h
    | msg s =>
      by_cases hs : s = ""
      · simp [sessionLoop, hs] at h
      · simp [sessionLoop, hs, List.mem_append] at h
        rcases h with h | h
        · exact ⟨u ++ ": " ++ s, h⟩
        · exact ih a h

/-- Inner scan of a broadcast trace: between the acquire and the release
every send happens with the lock held. -/
lemma scan_send_block (l : List SendAttempt) (d : Nat) (hd : d ≠ 0) :
    sendsOutsideLock (l.map sendEv ++ [BEv.rel]) d = [] ∧
    sendsInsideLock (l.map sendEv ++ [BEv.rel]) d =
      l.map fun a => (a.target, a.payload) := by
  induction l with
  | nil => simp [sendsOutsideLock, sendsInsideLock]
  | cons a t ih =>
    obtain ⟨ih1, ih2⟩ := ih
    simp [sendEv, sendsOutsideLock, sendsInsideLock, hd, ih1, ih2]

/-- C1: the wire has no self-delimiting frames. The server treats each raw
recv chunk as one logical message (server.py lines 64-71), so two
messages "hello" and "world" coalesced by TCP into one chunk are relayed
as the single message "alice: helloworld", while the length-prefixed
codec demanded by the claim recovers both frames from the same byte
stream. This evaluates the code at the failing input. -/
theorem unframed_recv_splits_messages :
    ("alice: helloworld", some 1) ∈
      (handleClient (fun _ => true) 1 [InEv.msg "alice", InEv.msg "helloworld"]
        [(2, "bob")]).calls ∧
    ("alice: hello", some 1) ∉
      (handleClient (fun _ => true) 1 [InEv.msg "alice", InEv.msg "helloworld"]
        [(2, "bob")]).calls ∧
    ("alice: world", some 1) ∉
      (handleClient (fun _ => true) 1 [InEv.msg "alice", InEv.msg "helloworld"]
        [(2, "bob")]).calls ∧
    decodeAll (encodeFrame (strBytes "hello") ++ encodeFrame (strBytes "world")) =
      [strBytes "hello", strBytes "world"] := by
  decide

/-- C2: the disconnect clean-up path does not complete. With A (conn 1,
"alice") and B (conn 2, "bob") registered and A at end of stream, the
finally block pops A and then invokes broadcast while still holding
self.lock; the non-reentrant lock blocks the nested acquire, so the
session deadlocks: the LEAVE call is made but no send of
"alice left the chat" ever reaches B (the only attempt performed is the
earlier JOIN), even though the registry no longer contains A. -/
theorem disconnect_cleanup_deadlocks :
    (handleClient (fun _ => true) 1 [InEv.msg "alice", InEv.msg ""]
      [(2, "bob")]).deadlocked = true ∧
    (handleClient (fun _ => true) 1 [InEv.msg "alice", InEv.msg ""]
      [(2, "bob")]).calls =
      [("alice joined the chat", some 1), ("alice left the chat", none)] ∧
    (handleClient (fun _ => true) 1 [InEv.msg "alice", InEv.msg ""]
      [(2, "bob")]).attempts = [⟨2, "alice joined the chat", true⟩] ∧
    dictHas (handleClient (fun _ => true) 1 [InEv.msg "alice", InEv.msg ""]
      [(2, "bob")]).reg 1 = false := by
  decide

/-- C3 counterexample: at a concrete broadcast of "hi" over a registry
holding only socket 2, the send to 2 happens with the lock held and no
send happens at lock depth zero, refuting the claim that sending always
happens outside the critical section. -/
theorem broadcast_send_inside_lock_cex :
    sendsInsideLock (broadcastTrace (fun _ => true) [(2, "bob")] "hi" none) 0 =
      [(2, "hi")] ∧
    sendsOutsideLock (broadcastTrace (fun _ => true) [(2, "bob")] "hi" none) 0 ≠
      [(2, "hi")] := by
  decide

/-- C3 amended: in every execution of broadcast, every send to a client
socket happens inside the critical section — the lock is acquired before
the send loop and released only after it (server.py lines 89-95), so no
send occurs at lock depth zero and all of them occur with the lock held. -/
theorem broadcast_sends_inside_lock (env : ConnId → Bool)
    (reg : List (ConnId × String)) (message : String) (exclude : Option ConnId) :
    sendsOutsideLock (broadcastTrace env reg message exclude) 0 = [] ∧
    sendsInsideLock (broadcastTrace env reg message exclude) 0 =
      (broadcastAttempts env reg message exclude).map fun a => (a.target, a.payload) := by
  obtain ⟨h1, h2⟩ := scan_send_block (broadcastAttempts env reg message exclude) 1 (by decide)
  simp [broadcastTrace, sendsOutsideLock, sendsInsideLock, h1, h2]

/-- C4: broadcast with the lock available always returns normally (the per
recipient try/except of server.py lines 92-95 swallows every send
failure), and every registered live socket other than the excluded one
receives a successful send of the message, whatever sockets are broken. -/
theorem broadcast_isolates_failures (env : ConnId → Bool)
    (reg : List (ConnId × String)) (message : String) (exclude : Option ConnId) :
    pyBroadcast true env reg message exclude =
      some (broadcastAttempts env reg message exclude) ∧
    ∀ c n, (c, n) ∈ reg → some c ≠ exclude → env c = true →
      (⟨c, message, true⟩ : SendAttempt) ∈ broadcastAttempts env reg message exclude := by
  refine ⟨rfl, ?_⟩
  intro c n hm hex henv
  have hmem := mem_broadcastAttempts_intro env reg message exclude c n hm hex
  rwa [henv] at hmem

/-- C4 witness: with sockets 1, 2, 3 registered and socket 2 broken, the
broadcast of "hi" still successfully delivers to the live socket 3. -/
theorem broadcast_isolates_failures_witness :
    ((3, "c") ∈ ([(1, "a"), (2, "b"), (3, "c")] : List (ConnId × String)) ∧
      some 3 ≠ (some 1 : Option ConnId) ∧
      (fun c => decide (c ≠ 2)) 3 = true) ∧
    (⟨3, "hi", true⟩ : SendAttempt) ∈
      broadcastAttempts (fun c => decide (c ≠ 2)) [(1, "a"), (2, "b"), (3, "c")]
        "hi" (some 1) :=
  ⟨⟨by decide, by decide, by decide⟩,
    (broadcast_isolates_failures (fun c => decide (c ≠ 2))
      [(1, "a"), (2, "b"), (3, "c")] "hi" (some 1)).2 3 "c"
      (by decide) (by decide) (by decide)⟩

/-- C5 counterexample: with "bob" (socket 2) registered but broken, the
session of "alice" (socket 1) performs a failed send to 2 that the bare
except swallows; afterwards bob is still registered and no LEAVE
broadcast for bob is ever invoked, refuting the claimed cleanup of failed
recipients. -/
theorem send_failure_no_cleanup_cex :
    (⟨2, "alice: hi", false⟩ : SendAttempt) ∈
      (handleClient (fun c => decide (c ≠ 2)) 1 [InEv.msg "alice", InEv.msg "hi"]
        [(2, "bob")]).attempts ∧
    dictHas (handleClient (fun c => decide (c ≠ 2)) 1
      [InEv.msg "alice", InEv.msg "hi"] [(2, "bob")]).reg 2 = true ∧
    ("bob left the chat", none) ∉
      (handleClient (fun c => decide (c ≠ 2)) 1 [InEv.msg "alice", InEv.msg "hi"]
        [(2, "bob")]).calls := by
  decide

/-- C5 amended: a failed send inside broadcast is silently swallowed: the
call still returns normally to its caller, and no cleanup is triggered —
a session never changes the registry entry of any connection other than
its own, so a recipient whose sends failed stays registered and gets no
LEAVE broadcast on its behalf. -/
theorem send_failure_silently_ignored :
    (∀ env : ConnId → Bool, ∀ reg message exclude, ∃ l,
      pyBroadcast true env reg message exclude = some l) ∧
    (∀ env : ConnId → Bool, ∀ conn evs reg0 c, c ≠ conn →
      dictGet (handleClient env conn evs reg0).reg c = dictGet reg0 c) := by
  constructor
  · intro env reg message exclude
    exact ⟨_, rfl⟩
  · intro env conn evs reg0 c hc
    cases henv : env conn with
    | false =>
      simp [handleClient, henv, cleanupStage_reg]
      split
      · exact dictGet_dictPop_ne _ _ _ hc
      · rfl
    | true =>
      cases evs with
      | nil =>
        simp [handleClient, henv, handshakeEv, cleanupStage_reg, dictHas_dictSet_self]
        rw [dictGet_dictPop_ne _ _ _ hc, dictGet_dictSet_ne _ _ _ _ hc]
      | cons e t =>
        cases e with
        | err =>
          simp [handleClient, henv, handshakeEv, cleanupStage_reg]
          split
          · exact dictGet_dictPop_ne _ _ _ hc
          · rfl
        | msg s =>
          simp [handleClient, henv, handshakeEv, cleanupStage_reg, dictHas_dictSet_self]
          rw [dictGet_dictPop_ne _ _ _ hc, dictGet_dictSet_ne _ _ _ _ hc]

/-- C5 amended witness: after the session of conn 1 with broken recipient
2, the registry entry of 2 is what it was before the session. -/
theorem send_failure_silently_ignored_witness :
    (2 : ConnId) ≠ 1 ∧
    dictGet (handleClient (fun c => decide (c ≠ 2)) 1
      [InEv.msg "alice", InEv.msg "hi"] [(2, "bob")]).reg 2 =
      dictGet [(2, "bob")] 2 :=
  ⟨by decide, send_failure_silently_ignored.2 (fun c => decide (c ≠ 2)) 1
    [InEv.msg "alice", InEv.msg "hi"] [(2, "bob")] 2 (by decide)⟩

/-- C6 counterexample: registering connection 1 as "bob" while 1 is already
registered as "alice" succeeds and replaces the entry: there is no
DuplicateConnection failure in the code (the register operation of
server.py line 59 is a plain dict assignment). -/
theorem register_duplicate_replaces_cex :
    dictSet [(1, "alice")] 1 "bob" = [(1, "bob")] ∧
    dictGet (dictSet [(1, "alice")] 1 "bob") 1 ≠ some "alice" := by
  decide

/-- C6 amended: registering a connectionID that is already present silently
replaces the display name of the existing entry in place, preserving the
registry size; no failure occurs. -/
theorem register_duplicate_silently_replaces (reg : List (ConnId × String))
    (c : ConnId) (n old : String) (h : dictGet reg c = some old) :
    dictGet (dictSet reg c n) c = some n ∧
    (dictSet reg c n).length = reg.length :=
  ⟨dictGet_dictSet_self reg c n, dictSet_length_of_mem reg c n old h⟩

/-- C6 amended witness: overwriting the entry of connection 1. -/
theorem register_duplicate_silently_replaces_witness :
    dictGet [(1, "alice")] 1 = some "alice" ∧
    (dictGet (dictSet [(1, "alice")] 1 "bob") 1 = some "bob" ∧
      (dictSet [(1, "alice")] 1 "bob").length =
        ([(1, "alice")] : List (ConnId × String)).length) :=
  ⟨by decide, register_duplicate_silently_replaces [(1, "alice")] 1 "bob" "alice"
    (by decide)⟩

/-- C7: no self-echo. A broadcast invoked with exclude = P never attempts a
send to P (server.py lines 90-93), and no send attempt performed by a
session of _handle_client — its JOIN notice and its DATA relays, all
invoked with exclude = self — targets that session's own socket. -/
theorem no_self_echo :
    (∀ env : ConnId → Bool, ∀ reg message P, ∀ a : SendAttempt,
      a ∈ broadcastAttempts env reg message (some P) → a.target ≠ P) ∧
    (∀ env : ConnId → Bool, ∀ conn evs reg0, ∀ a : SendAttempt,
      a ∈ (handleClient env conn evs reg0).attempts → a.target ≠ conn) := by
  constructor
  · intro env reg message P a ha
    exact broadcastAttempts_target_ne ha
  · intro env conn evs reg0 a ha
    cases henv : env conn with
    | false =>
      simp [handleClient, henv, cleanupStage_attempts] at ha
    | true =>
      cases evs with
      | nil =>
        simp [handleClient, henv, handshakeEv, cleanupStage_attempts, sessionLoop] at ha
        exact broadcastAttempts_target_ne ha
      | cons e t =>
        cases e with
        | err =>
          simp [handleClient, henv, handshakeEv, cleanupStage_attempts] at ha
        | msg s =>
          simp [handleClient, henv, handshakeEv, cleanupStage_attempts] at ha
          rcases ha with ha | ha
          · exact broadcastAttempts_target_ne ha
          · obtain ⟨m, hm⟩ := sessionLoop_attempts env conn (pyStrip s) _ t a ha
            exact broadcastAttempts_target_ne hm

/-- C7 witness: a concrete excluded broadcast and a concrete session, each
with a send attempt shown not to target the excluded or own socket. -/
theorem no_self_echo_witness :
    ((⟨2, "hi", true⟩ : SendAttempt) ∈
      broadcastAttempts (fun _ => true) [(2, "bob")] "hi" (some 1) ∧
      (2 : ConnId) ≠ 1) ∧
    ((⟨2, "alice joined the chat", true⟩ : SendAttempt) ∈
      (handleClient (fun _ => true) 1 [InEv.msg "alice", InEv.msg ""]
        [(2, "bob")]).attempts ∧
      (2 : ConnId) ≠ 1) :=
  ⟨⟨by decide, no_self_echo.1 (fun _ => true) [(2, "bob")] "hi" 1
      ⟨2, "hi", true⟩ (by decide)⟩,
    ⟨by decide, no_self_echo.2 (fun _ => true) 1 [InEv.msg "alice", InEv.msg ""]
      [(2, "bob")] ⟨2, "alice joined the chat", true⟩ (by decide)⟩⟩

/-- C8: for a fresh connection, every broadcast invocation a session makes
carries a payload of exactly one of the three forms — `u: body` for DATA,
`u joined the chat` for JOIN, `u left the chat` for LEAVE — where `u` is
the display name the registry holds for that connection (the session
registers it and the registry lookup returns exactly it); the body is
relayed verbatim, never parsed for a sender name. -/
theorem delivered_payload_forms (env : ConnId → Bool) (conn : ConnId)
    (evs : List InEv) (reg0 : List (ConnId × String))
    (hfresh : dictHas reg0 conn = false) :
    ∀ ce, ce ∈ (handleClient env conn evs reg0).calls →
    ∃ u r, (handleClient env conn evs reg0).active = some (u, r) ∧
      dictGet r conn = some u ∧
      ((∃ b, ce.1 = u ++ ": " ++ b) ∨ ce.1 = u ++ " joined the chat" ∨
        ce.1 = u ++ " left the chat") := by
  intro ce hce
  cases henv : env conn with
  | false =>
    simp [handleClient, henv, cleanupStage_calls, hfresh] at hce
  | true =>
    cases evs with
    | nil =>
      have hact : (handleClient env conn ([] : List InEv) reg0).active =
          some (pyStrip "", dictSet reg0 conn (pyStrip "")) := by
        simp [handleClient, henv, handshakeEv, cleanupStage_active]
      refine ⟨pyStrip "", dictSet reg0 conn (pyStrip ""), hact,
        dictGet_dictSet_self _ _ _, ?_⟩
      simp [handleClient, henv, handshakeEv, cleanupStage_calls,
        dictHas_dictSet_self, dictGet_dictSet_self, sessionLoop] at hce
      rcases hce with h | h
      · right; left; rw [h]
      · right; right; rw [h]
    | cons e t =>
      cases e with
      | err =>
        simp [handleClient, henv, handshakeEv, cleanupStage_calls, hfresh] at hce
      | msg s =>
        have hact : (handleClient env conn (InEv.msg s :: t) reg0).active =
            some (pyStrip s, dictSet reg0 conn (pyStrip s)) := by
          simp [handleClient, henv, handshakeEv, cleanupStage_active]
        refine ⟨pyStrip s, dictSet reg0 conn (pyStrip s), hact,
          dictGet_dictSet_self _ _ _, ?_⟩
        simp [handleClient, henv, handshakeEv, cleanupStage_calls,
          dictHas_dictSet_self, dictGet_dictSet_self] at hce
        rcases hce with h | h | h
        · right; left; rw [h]
        · obtain ⟨b, hb⟩ := sessionLoop_calls env conn (pyStrip s) _ t ce h
          left; exact ⟨b, by rw [hb]⟩
        · right; right; rw [h]

/-- C8 witness: in a concrete session of "alice" (registered from the
padded handshake chunk " alice "), the relayed DATA call "alice: hi" is
built from the registry name. -/
theorem delivered_payload_forms_witness :
    dictHas [(2, "bob")] 1 = false ∧
    ("alice: hi", some 1) ∈
      (handleClient (fun _ => true) 1 [InEv.msg " alice ", InEv.msg "hi"]
        [(2, "bob")]).calls ∧
    (∃ u r, (handleClient (fun _ => true) 1 [InEv.msg " alice ", InEv.msg "hi"]
        [(2, "bob")]).active = some (u, r) ∧
      dictGet r 1 = some u ∧
      ((∃ b, ("alice: hi", some 1).1 = u ++ ": " ++ b) ∨
        ("alice: hi", some 1).1 = u ++ " joined the chat" ∨
        ("alice: hi", some 1).1 = u ++ " left the chat")) :=
  ⟨by decide, by decide,
    delivered_payload_forms (fun _ => true) 1 [InEv.msg " alice ", InEv.msg "hi"]
      [(2, "bob")] (by decide) ("alice: hi", some 1) (by decide)⟩

/-- C9: any error before registration completes — the greeting send failing
(dead socket) or the first recv raising — leaves a fresh connection's
session with the registry exactly as it was, no broadcast invocation, no
send attempt, and no deadlock: the finally block finds the socket
unregistered and does nothing. -/
theorem pre_registration_error_clean_exit (env : ConnId → Bool) (conn : ConnId)
    (evs : List InEv) (reg0 : List (ConnId × String))
    (hfresh : dictHas reg0 conn = false)
    (herr : env conn = false ∨ ∃ t, evs = InEv.err :: t) :
    handleClient env conn evs reg0 = ⟨reg0, [], [], false, none⟩ := by
  rcases herr with h | ⟨t, ht⟩
  · simp [handleClient, h, cleanupStage, hfresh]
  · subst ht
    cases henv : env conn with
    | false => simp [handleClient, henv, cleanupStage, hfresh]
    | true => simp [handleClient, henv, handshakeEv, cleanupStage, hfresh]

/-- C9 witness: a dead socket 1 connecting while "bob" is registered. -/
theorem pre_registration_error_clean_exit_witness :
    dictHas [(2, "bob")] 1 = false ∧
    ((fun _ : ConnId => false) 1 = false ∨ ∃ t, ([] : List InEv) = InEv.err :: t) ∧
    handleClient (fun _ => false) 1 [] [(2, "bob")] =
      ⟨[(2, "bob")], [], [], false, none⟩ :=
  ⟨by decide, Or.inl rfl,
    pre_registration_error_clean_exit (fun _ => false) 1 [] [(2, "bob")]
      (by decide) (Or.inl rfl)⟩

/-- C10: the handshake validates nothing. Whatever the first chunk decodes
to, the session registers its stripped form verbatim — the empty string
included — and broadcasts the JOIN notice built from that name. -/
theorem handshake_no_validation (env : ConnId → Bool) (conn : ConnId)
    (s : String) (rest : List InEv) (reg0 : List (ConnId × String))
    (henv : env conn = true) :
    (handleClient env conn (InEv.msg s :: rest) reg0).active =
      some (pyStrip s, dictSet reg0 conn (pyStrip s)) ∧
    (pyStrip s ++ " joined the chat", some conn) ∈
      (handleClient env conn (InEv.msg s :: rest) reg0).calls := by
  constructor
  · simp [handleClient, henv, handshakeEv, cleanupStage_active]
  · simp [handleClient, henv, handshakeEv, cleanupStage_calls, dictHas_dictSet_self]

/-- C10 witness: a handshake chunk of pure whitespace registers the empty
display name and broadcasts its JOIN notice. -/
theorem handshake_no_validation_witness :
    (fun _ : ConnId => true) 1 = true ∧
    ((handleClient (fun _ => true) 1 [InEv.msg "  "] []).active =
      some (pyStrip "  ", dictSet [] 1 (pyStrip "  ")) ∧
    (pyStrip "  " ++ " joined the chat", some 1) ∈
      (handleClient (fun _ => true) 1 [InEv.msg "  "] []).calls) ∧
    pyStrip "  " = "" :=
  ⟨rfl, handshake_no_validation (fun _ => true) 1 "  " [] [] rfl, by decide⟩

end ChatServer
